import Mathlib

/-!
Verification of the 3DBuilder robot-viewer interaction core.

The development shallowly embeds the interaction logic of the RobotBuilder
component (src/components/RobotBuilder.tsx, with the revised
getRotationDirection helper of the newer revision of the same component):
the joint locator that walks the scene-graph parent chain, the pointer
handlers (hover highlight/restore, drag begin/update/end), the orbit-control
arbitration, and the clamped joint-value update.  JavaScript numbers are
modelled as exact rationals; the scene graph is an inductive parent chain;
the handlers are pure functions on an explicit interaction state, returning
the list of material.color.set calls they perform.
-/

namespace RobotBuilder

/-- JavaScript Math.sign on an exact rational (NaN inputs are not modelled). -/
def signQ (x : ℚ) : ℚ := if 0 < x then 1 else if x < 0 then -1 else 0

/-- JavaScript Math.min on two numbers. -/
def jsMin (a b : ℚ) : ℚ := if a ≤ b then a else b

/-- JavaScript Math.max on two numbers. -/
def jsMax (a b : ℚ) : ℚ := if a ≤ b then b else a

/-- THREE.MathUtils.clamp value lo hi, i.e. Math.max(lo, Math.min(hi, value)). -/
def clampQ (value lo hi : ℚ) : ℚ := jsMax lo (jsMin hi value)

/-- JavaScript numeric `a || b`: the fallback b when a is falsy (zero), otherwise a. -/
def jsOrQ (a b : ℚ) : ℚ := if a = 0 then b else a

/-- Reading `jointValue[0] || 0`: an out-of-range index (undefined) and an
actual 0 both yield 0. -/
def jsHeadOrZero : List ℚ → ℚ
  | [] => 0
  | v :: _ => v

/-- JavaScript truthiness of a string-or-null value: null and the empty string
are falsy. -/
def jsTruthyStr : Option String → Bool
  | none => false
  | some v => !(v == "")

/-- Coordinates of a THREE.Vector3 as exact rationals. -/
structure Vec3 where
  x : ℚ
  y : ℚ
  z : ℚ

/-- Components of a THREE.Quaternion as exact rationals. -/
structure Quat where
  x : ℚ
  y : ℚ
  z : ℚ
  w : ℚ

/-- THREE.Vector3.dot. -/
def Vec3.dot (a b : Vec3) : ℚ := a.x * b.x + a.y * b.y + a.z * b.z

/-- THREE.Vector3.applyQuaternion, written out coordinatewise exactly as in
three.js: with t = 2 (qv × v), the result is v + w t + qv × t. -/
def Vec3.applyQuaternion (v : Vec3) (q : Quat) : Vec3 :=
  let tx := 2 * (q.y * v.z - q.z * v.y)
  let ty := 2 * (q.z * v.x - q.x * v.z)
  let tz := 2 * (q.x * v.y - q.y * v.x)
  { x := v.x + q.w * tx + q.y * tz - q.z * ty
  , y := v.y + q.w * ty + q.z * tx - q.x * tz
  , z := v.z + q.w * tz + q.x * ty - q.y * tx }

/-- getRotationDirection of the RobotBuilder component (newer revision of
src/components/RobotBuilder.tsx, kept in the repository as an unnamed source
file): `-Math.sign(joint.axis.clone().applyQuaternion(joint.quaternion).dot(forward)) || 1`,
where forward is camera.getWorldDirection. -/
def getRotationDirection (axis : Vec3) (jointQuat : Quat) (forward : Vec3) : ℚ :=
  jsOrQ (-signQ ((axis.applyQuaternion jointQuat).dot forward)) 1

/-- Scene-graph node (THREE.Object3D) carrying the fields the interaction code
reads: `type` discriminates URDFJoint nodes, `name` and `jointValue` are read
off a located joint, `id` keys the mesh whose material colour the handlers
mutate, and the parent reference is absent exactly at the scene root. -/
inductive Obj where
  | root (id : Nat) (type : String) (name : String) (jointValue : List ℚ)
  | child (id : Nat) (type : String) (name : String) (jointValue : List ℚ) (parent : Obj)

def Obj.id : Obj → Nat
  | .root i _ _ _ => i
  | .child i _ _ _ _ => i

def Obj.type : Obj → String
  | .root _ t _ _ => t
  | .child _ t _ _ _ => t

def Obj.name : Obj → String
  | .root _ _ n _ => n
  | .child _ _ n _ _ => n

def Obj.jointValue : Obj → List ℚ
  | .root _ _ _ jv => jv
  | .child _ _ _ jv _ => jv

def Obj.parent : Obj → Option Obj
  | .root _ _ _ _ => none
  | .child _ _ _ _ p => some p

/-- findURDFJointFromObject: starting from the picked object, walk the parent
chain while the current node exists; return the first node whose type is
"URDFJoint", or null when the chain ends at the root. -/
def findURDFJointFromObject : Obj → Option Obj
  | .root i t n jv => if t == "URDFJoint" then some (.root i t n jv) else none
  | .child i t n jv p =>
      if t == "URDFJoint" then some (.child i t n jv p) else findURDFJointFromObject p

/-- Chain of nodes the locator loop can visit: the start object followed by
its ancestors up to the scene root. -/
def selfAndAncestors : Obj → List Obj
  | .root i t n jv => [.root i t n jv]
  | .child i t n jv p => .child i t n jv p :: selfAndAncestors p

/-- Number of loop iterations findURDFJointFromObject performs on a given
start object. -/
def locatorSteps : Obj → Nat
  | .root _ _ _ _ => 1
  | .child _ t _ _ p => if t == "URDFJoint" then 1 else 1 + locatorSteps p

/-- Entry of robot.joints as read by the handlers: the jointValue array (one
entry per degree of freedom) and limit.lower / limit.upper. -/
structure JointState where
  jointValue : List ℚ
  lower : ℚ
  upper : ℚ

/-- Highlight colour: const moveableColor = new THREE.Color(0xffff00 as "#ffff00"). -/
def moveableColor : String := "#ffff00"

/-- Drag sensitivity: const sensitivity = 0.01. -/
def sensitivity : ℚ := 1 / 100

/-- One material.color.set call performed by a handler: the target mesh id and
the argument it received; `none` models the JavaScript null that flows in
through `selectedJointColor.current!` when the ref is empty. -/
structure ColorSet where
  mesh : Nat
  arg : Option String

/-- Pointwise update of the displayed-colour map. -/
def setColorFn (colors : Nat → String) (i : Nat) (c : String) : Nat → String :=
  fun k => if k = i then c else colors k

/-- Effect of THREE.Color.set on the displayed colours: a string argument
replaces the colour, while null matches none of Color.set's branches and
leaves the colour unchanged. -/
def applyColorSet (colors : Nat → String) (a : ColorSet) : Nat → String :=
  match a.arg with
  | some c => setColorFn colors a.mesh c
  | none => colors

/-- Interaction state of the RobotBuilder component once a robot has loaded:
the React state (selectedJoint, selectedMesh, isDragging, isRotating), the
refs (selectedJointColor, lastMouseX), the robot's joint map, and the
displayed material colours keyed by mesh id.  Colour strings are kept in the
canonical hash-prefixed six-digit form, so the capture that rebuilds a string
from material.color.getHexString() is the identity on the stored string.
The robot.joints dictionary maps a joint name to its entry, none for a name
the robot does not have. -/
structure MState where
  joints : String → Option JointState
  colors : Nat → String
  selectedJoint : Option String
  selectedMesh : Option Nat
  selectedJointColor : Option String
  isDragging : Bool
  isRotating : Bool
  lastMouseX : ℚ

/-- onPointerOver: when neither dragging nor orbit-rotating, capture the
hovered material's colour into the selectedJointColor ref (unconditionally),
then highlight the mesh only when the located joint exists and has at least
one degree of freedom. -/
def onPointerOver (s : MState) (obj : Obj) : MState × List ColorSet :=
  if !s.isDragging && !s.isRotating then
    let captured := { s with selectedJointColor := some (s.colors obj.id) }
    match findURDFJointFromObject obj with
    | some j =>
        if !j.jointValue.isEmpty then
          ({ captured with colors := setColorFn captured.colors obj.id moveableColor },
           [⟨obj.id, some moveableColor⟩])
        else (captured, [])
    | none => (captured, [])
  else (s, [])

/-- onPointerOut: the source guard `!isDragging && selectedJointColor` tests
the ref container object, which is always truthy, so the guard reduces to
`!isDragging`; the handler then runs material.color.set on the ref's current
value (possibly null) and clears the ref. -/
def onPointerOut (s : MState) (obj : Obj) : MState × List ColorSet :=
  if !s.isDragging then
    ({ s with
       colors := applyColorSet s.colors ⟨obj.id, s.selectedJointColor⟩,
       selectedJointColor := none },
     [⟨obj.id, s.selectedJointColor⟩])
  else (s, [])

/-- handlePointerDown: locate the enclosing joint of the picked mesh; when it
exists and has at least one degree of freedom, record the joint name and the
mesh, enter dragging mode and anchor the pointer's x coordinate; otherwise do
nothing. -/
def handlePointerDown (s : MState) (obj : Obj) (clientX : ℚ) : MState :=
  match findURDFJointFromObject obj with
  | some j =>
      if !j.jointValue.isEmpty then
        { s with
          selectedJoint := some j.name, selectedMesh := some obj.id,
          isDragging := true, lastMouseX := clientX }
      else s
  | none => s

/-- handlePointerMove: while dragging with a (truthy) selected joint name,
read the joint from robot.joints, measure the frame-to-frame horizontal
delta, advance the anchor, compute the camera-based direction
-Math.sign(forward.z), clamp current + dx * sensitivity * direction to the
joint limits and apply it via robot.setJointValue (modelled as writing
jointValue[0]).  A joint name missing from robot.joints would throw in
JavaScript, modelled as `none`.  The state exists only after a robot has
loaded, so the `robot &&` conjunct of the source guard is satisfied. -/
def handlePointerMove (s : MState) (clientX : ℚ) (forwardZ : ℚ) : Option MState :=
  if s.isDragging && jsTruthyStr s.selectedJoint then
    match s.selectedJoint with
    | some n =>
        match s.joints n with
        | some j =>
            let dx := clientX - s.lastMouseX
            let currentValue := jsHeadOrZero j.jointValue
            let direction := -signQ forwardZ
            let newValue := currentValue + dx * sensitivity * direction
            let clamped := clampQ newValue j.lower j.upper
            some { s with
                   lastMouseX := clientX,
                   joints := fun k =>
                     if k = n then some { j with jointValue := clamped :: j.jointValue.tail }
                     else s.joints k }
        | none => none
    | none => some s
  else some s

/-- handlePointerUp: the source guard `selectedMesh && selectedJointColor`
tests the always-truthy ref container in its second conjunct, so it reduces
to the selectedMesh null check; when a mesh is recorded, run
material.color.set on the ref's current value (possibly null), clear the ref
and reset all drag state. -/
def handlePointerUp (s : MState) : MState × List ColorSet :=
  match s.selectedMesh with
  | some mid =>
      ({ s with
         colors := applyColorSet s.colors ⟨mid, s.selectedJointColor⟩,
         selectedJointColor := none, isDragging := false,
         selectedJoint := none, selectedMesh := none },
       [⟨mid, s.selectedJointColor⟩])
  | none => (s, [])

/-- Pointer and orbit-control events the component reacts to.  pointerMove
carries the z component of the camera's world direction, the only part of
the camera the drag-update reads. -/
inductive Event where
  | pointerOver (obj : Obj)
  | pointerOut (obj : Obj)
  | pointerDown (obj : Obj) (clientX : ℚ)
  | pointerMove (clientX : ℚ) (forwardZ : ℚ)
  | pointerUp
  | orbitStart
  | orbitEnd

/-- One event-handler dispatch.  orbitStart / orbitEnd are the OrbitControls
onStart / onEnd notifications, which toggle isRotating. -/
def stepM (s : MState) : Event → Option MState
  | .pointerOver obj => some (onPointerOver s obj).1
  | .pointerOut obj => some (onPointerOut s obj).1
  | .pointerDown obj x => some (handlePointerDown s obj x)
  | .pointerMove x fz => handlePointerMove s x fz
  | .pointerUp => some (handlePointerUp s).1
  | .orbitStart => some { s with isRotating := true }
  | .orbitEnd => some { s with isRotating := false }

/-- Run of a sequence of events. -/
def runM (s : MState) : List Event → Option MState
  | [] => some s
  | e :: es =>
      match stepM s e with
      | some s' => runM s' es
      | none => none

/-- OrbitControls receives enableRotate = !isDragging. -/
def enableRotate (s : MState) : Bool := !s.isDragging

/-- Number of steps along a run at which orbit rotation flips from disabled
to enabled. -/
def countEnables (s : MState) : List Event → Option Nat
  | [] => some 0
  | e :: es =>
      match stepM s e with
      | some s' =>
          (countEnables s' es).map
            (fun k => (if !enableRotate s && enableRotate s' then 1 else 0) + k)
      | none => none

/-- Events that can occur strictly inside a single drag gesture (between the
pointer-down that begins it and the pointer-up that ends it). -/
def dragSafe : Event → Bool
  | .pointerDown _ _ => false
  | .pointerUp => false
  | _ => true

/-- Events other than pointer-up. -/
def notPointerUp : Event → Bool
  | .pointerUp => false
  | _ => true

/-- Current value of a named joint as the drag code reads it:
robot.joints[n].jointValue[0] || 0. -/
def jointVal (s : MState) (n : String) : Option ℚ :=
  (s.joints n).map (fun j => jsHeadOrZero j.jointValue)

/-- Single-degree-of-freedom joint with limits -1 .. 1 at value 0, used as a
concrete instantiation. -/
def wJoint : JointState := ⟨[0], -1, 1⟩

/-- Concrete mid-drag state: joint j1 selected, mesh 5 recorded, captured
colour held in the ref. -/
def wDragState : MState :=
  { joints := fun k => if k = "j1" then some wJoint else none,
    colors := fun _ => "#808080",
    selectedJoint := some "j1", selectedMesh := some 5,
    selectedJointColor := some "#808080", isDragging := true,
    isRotating := false, lastMouseX := 0 }

/-- Concrete mesh whose enclosing joint is the movable j1. -/
def wObj : Obj := .child 5 "Mesh" "m5" [] (.root 6 "URDFJoint" "j1" [0])

/-- Concrete mesh with no URDFJoint anywhere in its parent chain. -/
def wPlainObj : Obj := .child 9 "Mesh" "m9" [] (.root 10 "Group" "base" [])

/-- Concrete idle state (nothing selected, nothing captured). -/
def c8Idle : MState :=
  { joints := fun k => if k = "fix" then some ⟨[], 0, 0⟩ else none,
    colors := fun _ => "#ff0000",
    selectedJoint := none, selectedMesh := none, selectedJointColor := none,
    isDragging := false, isRotating := false, lastMouseX := 0 }

/-- Concrete mesh whose enclosing joint is fixed (zero degrees of freedom). -/
def c8Obj : Obj := .child 7 "Mesh" "m7" [] (.root 8 "URDFJoint" "fix" [])

/-- Concrete freshly-loaded state for the null-restore runs. -/
def c9Init : MState :=
  { joints := fun k => if k = "j1" then some wJoint else none,
    colors := fun _ => "#00aa00",
    selectedJoint := none, selectedMesh := none, selectedJointColor := none,
    isDragging := false, isRotating := false, lastMouseX := 0 }

/-- Concrete mesh (id 3) under the movable joint j1. -/
def c9Obj : Obj := .child 3 "Mesh" "m3" [] (.root 4 "URDFJoint" "j1" [0])

theorem clampQ_mem (v lo hi : ℚ) (h : lo ≤ hi) :
    lo ≤ clampQ v lo hi ∧ clampQ v lo hi ≤ hi := by
  unfold clampQ jsMax jsMin
  split_ifs <;> constructor <;> linarith

theorem stepM_dragSafe_inv (s s' : MState) (e : Event)
    (hd : s.isDragging = true) (he : dragSafe e = true)
    (hs : stepM s e = some s') :
    s'.isDragging = true ∧ s'.selectedMesh = s.selectedMesh ∧
    s'.selectedJointColor = s.selectedJointColor ∧ s'.colors = s.colors := by
  cases e with
  | pointerOver obj =>
      simp only [stepM, onPointerOver, hd] at hs
      simp only [Bool.not_true, Bool.false_and, Bool.false_eq_true, if_false] at hs
      cases hs
      exact ⟨hd, rfl, rfl, rfl⟩
  | pointerOut obj =>
      simp only [stepM, onPointerOut, hd] at hs
      simp only [Bool.not_true, Bool.false_eq_true, if_false] at hs
      cases hs
      exact ⟨hd, rfl, rfl, rfl⟩
  | pointerDown obj x => simp [dragSafe] at he
  | pointerMove x fz =>
      simp only [stepM, handlePointerMove] at hs
      split at hs
      · split at hs
        · split at hs
          · cases hs
            exact ⟨hd, rfl, rfl, rfl⟩
          · cases hs
        · cases hs
          exact ⟨hd, rfl, rfl, rfl⟩
      · cases hs
        exact ⟨hd, rfl, rfl, rfl⟩
  | pointerUp => simp [dragSafe] at he
  | orbitStart =>
      simp only [stepM] at hs
      cases hs
      exact ⟨hd, rfl, rfl, rfl⟩
  | orbitEnd =>
      simp only [stepM] at hs
      cases hs
      exact ⟨hd, rfl, rfl, rfl⟩

theorem runM_dragSafe_inv (es : List Event) (s s' : MState)
    (hd : s.isDragging = true) (hes : ∀ e ∈ es, dragSafe e = true)
    (hrun : runM s es = some s') :
    s'.isDragging = true ∧ s'.selectedMesh = s.selectedMesh ∧
    s'.selectedJointColor = s.selectedJointColor ∧ s'.colors = s.colors := by
  induction es generalizing s with
  | nil =>
      simp only [runM] at hrun
      cases hrun
      exact ⟨hd, rfl, rfl, rfl⟩
  | cons e es ih =>
      simp only [runM] at hrun
      cases h : stepM s e with
      | none => rw [h] at hrun; cases hrun
      | some s1 =>
          rw [h] at hrun
          have he := hes e (List.mem_cons_self e es)
          have hinv := stepM_dragSafe_inv s s1 e hd he h
          have hrest := ih s1 hinv.1 (fun e' he' => hes e' (List.mem_cons_of_mem e he')) hrun
          exact ⟨hrest.1, hrest.2.1.trans hinv.2.1, hrest.2.2.1.trans hinv.2.2.1,
                 hrest.2.2.2.trans hinv.2.2.2⟩

theorem stepM_notUp_inv (s s' : MState) (e : Event)
    (hd : s.isDragging = true) (hm : s.selectedMesh.isSome = true)
    (he : notPointerUp e = true) (hs : stepM s e = some s') :
    s'.isDragging = true ∧ s'.selectedMesh.isSome = true := by
  cases e with
  | pointerDown obj x =>
      simp only [stepM, handlePointerDown] at hs
      split at hs
      · split at hs
        · cases hs
          exact ⟨rfl, rfl⟩
        · cases hs
          exact ⟨hd, hm⟩
      · cases hs
        exact ⟨hd, hm⟩
  | pointerUp => simp [notPointerUp] at he
  | pointerOver obj =>
      have hinv := stepM_dragSafe_inv s s' (.pointerOver obj) hd rfl hs
      refine ⟨hinv.1, ?_⟩
      rw [hinv.2.1]
      exact hm
  | pointerOut obj =>
      have hinv := stepM_dragSafe_inv s s' (.pointerOut obj) hd rfl hs
      refine ⟨hinv.1, ?_⟩
      rw [hinv.2.1]
      exact hm
  | pointerMove x fz =>
      have hinv := stepM_dragSafe_inv s s' (.pointerMove x fz) hd rfl hs
      refine ⟨hinv.1, ?_⟩
      rw [hinv.2.1]
      exact hm
  | orbitStart =>
      have hinv := stepM_dragSafe_inv s s' .orbitStart hd rfl hs
      refine ⟨hinv.1, ?_⟩
      rw [hinv.2.1]
      exact hm
  | orbitEnd =>
      have hinv := stepM_dragSafe_inv s s' .orbitEnd hd rfl hs
      refine ⟨hinv.1, ?_⟩
      rw [hinv.2.1]
      exact hm

theorem runM_notUp_inv (es : List Event) (s s' : MState)
    (hd : s.isDragging = true) (hm : s.selectedMesh.isSome = true)
    (hes : ∀ e ∈ es, notPointerUp e = true)
    (hrun : runM s es = some s') :
    s'.isDragging = true ∧ s'.selectedMesh.isSome = true := by
  induction es generalizing s with
  | nil =>
      simp only [runM, Option.some.injEq] at hrun
      subst hrun
      exact ⟨hd, hm⟩
  | cons e es ih =>
      simp only [runM] at hrun
      cases h : stepM s e with
      | none => rw [h] at hrun; cases hrun
      | some s1 =>
          rw [h] at hrun
          have hinv := stepM_notUp_inv s s1 e hd hm (hes e (List.mem_cons_self e es)) h
          exact ih s1 hinv.1 hinv.2 (fun e' he' => hes e' (List.mem_cons_of_mem e he')) hrun

theorem countEnables_drag_to_up (es : List Event) (s s' : MState)
    (hd : s.isDragging = true) (hm : s.selectedMesh.isSome = true)
    (hes : ∀ e ∈ es, notPointerUp e = true)
    (hrun : runM s es = some s') :
    countEnables s (es ++ [.pointerUp]) = some 1 := by
  induction es generalizing s with
  | nil =>
      simp only [runM, Option.some.injEq] at hrun
      subst hrun
      obtain ⟨mid, hmid⟩ := Option.isSome_iff_exists.mp hm
      have hup : (handlePointerUp s).1.isDragging = false := by
        unfold handlePointerUp
        rw [hmid]
      simp [countEnables, stepM, enableRotate, hd, hup]
  | cons e es ih =>
      simp only [runM] at hrun
      cases h : stepM s e with
      | none => rw [h] at hrun; cases hrun
      | some s1 =>
          rw [h] at hrun
          have he := hes e (List.mem_cons_self e es)
          have hinv := stepM_notUp_inv s s1 e hd hm he h
          have hrest := ih s1 hinv.1 hinv.2
            (fun e' he' => hes e' (List.mem_cons_of_mem e he')) hrun
          rw [List.cons_append]
          simp only [countEnables, h]
          rw [hrest]
          simp [enableRotate, hd, hinv.1]

/-- C7: the joint locator returns the first node of the parent chain (the
picked object followed by its ancestors) whose node type is "URDFJoint" —
the nearest enclosing articulated joint — or none when the chain is
exhausted at the root, and its loop runs at most one iteration per node of
the chain; it is a pure, deterministic function of the hierarchy. -/
theorem c7_joint_locator_nearest_ancestor (o : Obj) :
    findURDFJointFromObject o
      = (selfAndAncestors o).find? (fun a => a.type == "URDFJoint") ∧
    locatorSteps o ≤ (selfAndAncestors o).length := by
  induction o with
  | root i t n jv =>
      constructor
      · by_cases h : (t == "URDFJoint") = true
        · simp [findURDFJointFromObject, selfAndAncestors, List.find?_cons, Obj.type, h]
        · simp [findURDFJointFromObject, selfAndAncestors, List.find?_cons, Obj.type, h]
      · simp [locatorSteps, selfAndAncestors]
  | child i t n jv p ih =>
      constructor
      · by_cases h : (t == "URDFJoint") = true
        · simp [findURDFJointFromObject, selfAndAncestors, List.find?_cons, Obj.type, h]
        · simp [findURDFJointFromObject, selfAndAncestors, List.find?_cons, Obj.type, h,
                ih.1]
      · by_cases h : (t == "URDFJoint") = true
        · simp [locatorSteps, selfAndAncestors, h]
        · have := ih.2
          simp [locatorSteps, selfAndAncestors, h]
          omega

/-- C2: the drag direction sign computed by getRotationDirection is
-sign(axis · forward) — the axis being the joint's local axis rotated into
world space by the joint's own quaternion — with fallback +1 when the dot
product is exactly zero, and the result is always +1 or -1, never 0. -/
theorem c2_direction_sign_from_axis_forward (axis : Vec3) (q : Quat) (forward : Vec3) :
    getRotationDirection axis q forward
      = (if (axis.applyQuaternion q).dot forward = 0 then 1
         else -signQ ((axis.applyQuaternion q).dot forward)) ∧
    (getRotationDirection axis q forward = 1 ∨
     getRotationDirection axis q forward = -1) := by
  rcases lt_trichotomy ((axis.applyQuaternion q).dot forward) 0 with h | h | h
  · have h0 : ¬ (0 < (axis.applyQuaternion q).dot forward) := by linarith
    have hne : (axis.applyQuaternion q).dot forward ≠ 0 := ne_of_lt h
    simp [getRotationDirection, jsOrQ, signQ, h, h0, hne]
  · simp [getRotationDirection, jsOrQ, signQ, h]
  · have h0 : ¬ ((axis.applyQuaternion q).dot forward < 0) := by linarith
    have hne : (axis.applyQuaternion q).dot forward ≠ 0 := ne_of_gt h
    simp [getRotationDirection, jsOrQ, signQ, h, h0, hne]

/-- C4: a pointer-down whose joint lookup finds no enclosing URDFJoint, or
finds one with an empty jointValue array (zero degrees of freedom), is
ignored: the handler returns the whole interaction state unchanged —
selection, drag flag, anchor and displayed colours included. -/
theorem c4_pointer_down_non_articulated_noop (s : MState) (obj : Obj) (x : ℚ)
    (h : findURDFJointFromObject obj = none ∨
         ∃ j, findURDFJointFromObject obj = some j ∧ j.jointValue = []) :
    handlePointerDown s obj x = s ∧ stepM s (.pointerDown obj x) = some s := by
  have hmain : handlePointerDown s obj x = s := by
    rcases h with h | ⟨j, hj, hdof⟩
    · simp [handlePointerDown, h]
    · simp [handlePointerDown, hj, hdof]
  exact ⟨hmain, by simp [stepM, hmain]⟩

/-- C4 witness: a concrete pointer-down on a mesh whose parent chain holds
no URDFJoint leaves the concrete state untouched. -/
theorem c4_pointer_down_non_articulated_noop_witness :
    (findURDFJointFromObject wPlainObj = none ∨
      ∃ j, findURDFJointFromObject wPlainObj = some j ∧ j.jointValue = []) ∧
    (handlePointerDown c9Init wPlainObj 7 = c9Init ∧
     stepM c9Init (.pointerDown wPlainObj 7) = some c9Init) :=
  ⟨Or.inl rfl, c4_pointer_down_non_articulated_noop c9Init wPlainObj 7 (Or.inl rfl)⟩

/-- C8 counterexample: a pointer-enter in the idle state over a part whose
enclosing joint is fixed (zero degrees of freedom) does modify interaction
state — the captured originalColor ref, empty beforehand, is overwritten
with the part's current colour — refuting that such a hover changes no
interaction state. -/
theorem c8_counterexample_hover_fixed_joint_modifies_state :
    c8Idle.selectedJointColor = none ∧
    (stepM c8Idle (.pointerOver c8Obj)).map MState.selectedJointColor
      = some (some "#ff0000") := ⟨rfl, rfl⟩

/-- C8 amended: a pointer-enter in the idle state over a part whose
enclosing joint has zero degrees of freedom applies no highlight — the
displayed colours are unchanged and no color.set runs — and leaves the
selection, drag flag, anchor and joints unmodified, but it does overwrite
the captured originalColor ref with the part's current colour. -/
theorem c8_fixed_joint_hover_no_highlight_but_capture
    (s : MState) (obj j : Obj)
    (hd : s.isDragging = false) (hr : s.isRotating = false)
    (hj : findURDFJointFromObject obj = some j)
    (hdof : j.jointValue = []) :
    (onPointerOver s obj).1.colors = s.colors ∧
    (onPointerOver s obj).2 = [] ∧
    (onPointerOver s obj).1.selectedJointColor = some (s.colors obj.id) ∧
    (onPointerOver s obj).1.selectedJoint = s.selectedJoint ∧
    (onPointerOver s obj).1.selectedMesh = s.selectedMesh ∧
    (onPointerOver s obj).1.isDragging = false ∧
    (onPointerOver s obj).1.isRotating = false ∧
    (onPointerOver s obj).1.lastMouseX = s.lastMouseX ∧
    (onPointerOver s obj).1.joints = s.joints := by
  have hover : onPointerOver s obj
      = ({ s with selectedJointColor := some (s.colors obj.id) }, []) := by
    simp [onPointerOver, hd, hr, hj, hdof]
  rw [hover]
  exact ⟨rfl, rfl, rfl, rfl, rfl, hd, hr, rfl, rfl⟩

/-- C8 witness: the amended statement instantiated at the concrete idle
state and the concrete fixed-joint mesh. -/
theorem c8_fixed_joint_hover_no_highlight_but_capture_witness :
    (c8Idle.isDragging = false ∧ c8Idle.isRotating = false ∧
     findURDFJointFromObject c8Obj = some (.root 8 "URDFJoint" "fix" []) ∧
     Obj.jointValue (.root 8 "URDFJoint" "fix" []) = []) ∧
    ((onPointerOver c8Idle c8Obj).1.colors = c8Idle.colors ∧
     (onPointerOver c8Idle c8Obj).2 = [] ∧
     (onPointerOver c8Idle c8Obj).1.selectedJointColor
       = some (c8Idle.colors c8Obj.id) ∧
     (onPointerOver c8Idle c8Obj).1.selectedJoint = c8Idle.selectedJoint ∧
     (onPointerOver c8Idle c8Obj).1.selectedMesh = c8Idle.selectedMesh ∧
     (onPointerOver c8Idle c8Obj).1.isDragging = false ∧
     (onPointerOver c8Idle c8Obj).1.isRotating = false ∧
     (onPointerOver c8Idle c8Obj).1.lastMouseX = c8Idle.lastMouseX ∧
     (onPointerOver c8Idle c8Obj).1.joints = c8Idle.joints) :=
  ⟨⟨rfl, rfl, rfl, rfl⟩,
   c8_fixed_joint_hover_no_highlight_but_capture c8Idle c8Obj
     (.root 8 "URDFJoint" "fix" []) rfl rfl rfl rfl⟩

/-- C9: both colour-restore paths guard on the always-truthy ref container,
so they run material.color.set on the ref contents even when nothing was
captured: onPointerOut in the freshly-loaded state performs the set with the
null (none) colour, a drag begun without a prior capture reaches
handlePointerUp with the ref still empty and again passes null to the set,
and the null branch of the modelled Color.set leaves the colour unchanged. -/
theorem c9_null_restore_reachable :
    (onPointerOut c9Init c9Obj).2 = [⟨3, none⟩] ∧
    (runM c9Init [.pointerDown c9Obj 0]).map (fun t => (handlePointerUp t).2)
      = some [⟨3, none⟩] ∧
    applyColorSet c9Init.colors ⟨3, none⟩ = c9Init.colors := ⟨rfl, rfl, rfl⟩

/-- C1: while dragging joint n, a pointer-move applies to n exactly
clamp(current + dx * sensitivity * direction, lower, upper), with
dx = clientX - lastMouseX and direction = -sign(forward.z); whenever the
joint's limits satisfy lower ≤ upper, the applied value therefore lies
within them, and every other joint keeps its value. -/
theorem c1_applied_value_clamped_within_limits
    (s : MState) (n : String) (j : JointState) (x fz : ℚ)
    (hd : s.isDragging = true) (hn : s.selectedJoint = some n)
    (hne : (n == "") = false) (hj : s.joints n = some j)
    (hlim : j.lower ≤ j.upper) :
    ∃ s', stepM s (.pointerMove x fz) = some s' ∧
      jointVal s' n
        = some (clampQ
            (jsHeadOrZero j.jointValue + (x - s.lastMouseX) * sensitivity * (-signQ fz))
            j.lower j.upper) ∧
      (∃ v, jointVal s' n = some v ∧ j.lower ≤ v ∧ v ≤ j.upper) ∧
      (∀ m, m ≠ n → jointVal s' m = jointVal s m) := by
  have hstep : stepM s (.pointerMove x fz)
      = some { s with
               lastMouseX := x,
               joints := fun k =>
                 if k = n then
                   some { j with jointValue := clampQ (jsHeadOrZero j.jointValue + (x - s.lastMouseX) * sensitivity * (-signQ fz)) j.lower j.upper :: j.jointValue.tail }
                 else s.joints k } := by
    simp [stepM, handlePointerMove, hn, hj, jsTruthyStr, hne, hd]
  refine ⟨_, hstep, ?_, ?_, ?_⟩
  · dsimp only [jointVal]
    rw [if_pos rfl]
    rfl
  · refine ⟨clampQ (jsHeadOrZero j.jointValue + (x - s.lastMouseX) * sensitivity * (-signQ fz)) j.lower j.upper,
      ?_, (clampQ_mem _ _ _ hlim).1, (clampQ_mem _ _ _ hlim).2⟩
    dsimp only [jointVal]
    rw [if_pos rfl]
    rfl
  · intro m hmn
    dsimp only [jointVal]
    rw [if_neg hmn]

/-- C1 witness: the theorem applied at the concrete mid-drag state, with a
pointer-move of +3 px and a camera looking along z = 0. -/
theorem c1_applied_value_clamped_within_limits_witness :
    (wDragState.isDragging = true ∧ wDragState.selectedJoint = some "j1" ∧
     (("j1" : String) == "") = false ∧ wDragState.joints "j1" = some wJoint ∧
     wJoint.lower ≤ wJoint.upper) ∧
    (∃ s', stepM wDragState (.pointerMove 3 0) = some s' ∧
      jointVal s' "j1"
        = some (clampQ
            (jsHeadOrZero wJoint.jointValue
              + (3 - wDragState.lastMouseX) * sensitivity * (-signQ 0))
            wJoint.lower wJoint.upper) ∧
      (∃ v, jointVal s' "j1" = some v ∧ wJoint.lower ≤ v ∧ v ≤ wJoint.upper) ∧
      (∀ m, m ≠ "j1" → jointVal s' m = jointVal wDragState m)) :=
  ⟨⟨rfl, rfl, rfl, rfl, by decide⟩,
   c1_applied_value_clamped_within_limits wDragState "j1" wJoint 3 0
     rfl rfl rfl rfl (by decide)⟩

/-- C5: with joint limits -1 .. 1, current value 0, sensitivity 0.01 and
direction sign +1 (camera forward z component negative), a single
pointer-move of +250 px computes candidate 0 + 250 * 0.01 * 1 = 2.5 and
applies the clamped value 1 to the joint. -/
theorem c5_drag_scenario_clamps_to_upper :
    ((0:ℚ) + 250 * sensitivity * 1 = 5/2) ∧
    clampQ (5/2) (-1) 1 = 1 ∧
    -signQ (-1) = 1 ∧
    (stepM wDragState (.pointerMove 250 (-1))).bind (fun s' => jointVal s' "j1")
      = some 1 := by
  refine ⟨by norm_num [sensitivity], by norm_num [clampQ, jsMax, jsMin],
          by norm_num [signQ], ?_⟩
  have h4 : clampQ ((0:ℚ) + (250 - 0) * sensitivity * (-signQ (-1))) (-1) 1 = 1 := by
    norm_num [clampQ, jsMax, jsMin, sensitivity, signQ]
  have h5 : (stepM wDragState (.pointerMove 250 (-1))).bind (fun s' => jointVal s' "j1")
      = some (clampQ ((0:ℚ) + (250 - 0) * sensitivity * (-signQ (-1))) (-1) 1) := rfl
  rw [h5, h4]

/-- C3: from any mid-drag state whose ref holds the colour captured at
drag-start, any run of in-gesture events leaves the displayed colours and
the captured colour untouched — in particular pointer-out during the drag
restores nothing — and the pointer-up ending the drag performs exactly one
material.color.set with the captured colour, after which the dragged part
displays that colour again: capture-then-release is a colour round-trip. -/
theorem c3_drag_release_color_roundtrip
    (s : MState) (mid : Nat) (c : String) (es : List Event)
    (hd : s.isDragging = true) (hm : s.selectedMesh = some mid)
    (hc : s.selectedJointColor = some c)
    (hes : ∀ e ∈ es, dragSafe e = true)
    (s' : MState) (hrun : runM s es = some s') :
    s'.colors = s.colors ∧
    (∀ o : Obj, onPointerOut s' o = (s', [])) ∧
    (handlePointerUp s').2 = [⟨mid, some c⟩] ∧
    (handlePointerUp s').1.colors mid = c ∧
    stepM s' .pointerUp = some (handlePointerUp s').1 := by
  obtain ⟨hd', hm', hc', hcol⟩ := runM_dragSafe_inv es s s' hd hes hrun
  rw [hm] at hm'
  rw [hc] at hc'
  refine ⟨hcol, ?_, ?_, ?_, rfl⟩
  · intro o
    simp [onPointerOut, hd']
  · simp [handlePointerUp, hm', hc']
  · simp [handlePointerUp, hm', hc', applyColorSet, setColorFn]

/-- C3 witness: the theorem applied at the concrete mid-drag state with a
mid-drag pointer-out (which restores nothing) followed by the release. -/
theorem c3_drag_release_color_roundtrip_witness :
    (wDragState.isDragging = true ∧ wDragState.selectedMesh = some 5 ∧
     wDragState.selectedJointColor = some "#808080" ∧
     (∀ e ∈ [Event.pointerOut wObj], dragSafe e = true) ∧
     runM wDragState [Event.pointerOut wObj] = some wDragState) ∧
    (wDragState.colors = wDragState.colors ∧
     (∀ o : Obj, onPointerOut wDragState o = (wDragState, [])) ∧
     (handlePointerUp wDragState).2 = [⟨5, some "#808080"⟩] ∧
     (handlePointerUp wDragState).1.colors 5 = "#808080" ∧
     stepM wDragState .pointerUp = some (handlePointerUp wDragState).1) :=
  ⟨⟨rfl, rfl, rfl, by decide, rfl⟩,
   c3_drag_release_color_roundtrip wDragState 5 "#808080"
     [Event.pointerOut wObj] rfl rfl rfl (by decide) wDragState rfl⟩

/-- C6: orbit rotation is wired as the negation of the drag flag, so it is
never enabled while a drag is active; along any drag — a run of
non-pointer-up events from a dragging state with a recorded mesh — it stays
disabled, the pointer-up ending the drag re-enables it, and over the whole
gesture including that pointer-up it flips from disabled to enabled exactly
once. -/
theorem c6_orbit_disabled_iff_dragging
    (s : MState) (es : List Event)
    (hd : s.isDragging = true) (hm : s.selectedMesh.isSome = true)
    (hes : ∀ e ∈ es, notPointerUp e = true)
    (s' : MState) (hrun : runM s es = some s') :
    (∀ t : MState, enableRotate t = !t.isDragging) ∧
    enableRotate s = false ∧ enableRotate s' = false ∧
    (stepM s' .pointerUp).map enableRotate = some true ∧
    countEnables s (es ++ [.pointerUp]) = some 1 := by
  obtain ⟨hd', hm'⟩ := runM_notUp_inv es s s' hd hm hes hrun
  obtain ⟨mid, hmid⟩ := Option.isSome_iff_exists.mp hm'
  have hup : (handlePointerUp s').1.isDragging = false := by
    unfold handlePointerUp
    rw [hmid]
  refine ⟨fun t => rfl, ?_, ?_, ?_, ?_⟩
  · simp [enableRotate, hd]
  · simp [enableRotate, hd']
  · simp [stepM, enableRotate, hup]
  · exact countEnables_drag_to_up es s s' hd hm hes hrun

/-- C6 witness: the theorem applied at the concrete mid-drag state with the
empty in-drag run followed by the release. -/
theorem c6_orbit_disabled_iff_dragging_witness :
    (wDragState.isDragging = true ∧ wDragState.selectedMesh.isSome = true ∧
     (∀ e ∈ ([] : List Event), notPointerUp e = true) ∧
     runM wDragState [] = some wDragState) ∧
    ((∀ t : MState, enableRotate t = !t.isDragging) ∧
     enableRotate wDragState = false ∧ enableRotate wDragState = false ∧
     (stepM wDragState .pointerUp).map enableRotate = some true ∧
     countEnables wDragState ([] ++ [.pointerUp]) = some 1) :=
  ⟨⟨rfl, rfl, by decide, rfl⟩,
   c6_orbit_disabled_iff_dragging wDragState [] rfl rfl (by decide) wDragState rfl⟩

end RobotBuilder
